import Mathlib

/-!
Shallow embedding of the core of the petri multi-agent simulation
(bounded memory log, message broker, generic environment, donor-game
environment) together with proofs about the embedded operations.

Conventions of the embedding:
* Go `map[string]V` values are modelled as association lists
  `List (String × V)`; the list order stands for the (unspecified) scan
  order of the Go map.  Reads of absent keys yield the zero value, as in Go.
* Go `float64` resource balances are modelled as exact rationals `ℚ`;
  the statements proved are about the algebra of the operations, not about
  floating-point rounding.
* Concurrency is externalized: the shuffled pairing order and each donor
  agent's LLM completion result are explicit parameters of `Step`, so the
  function computes what one round does for a given schedule of outcomes.
* Fallible Go methods that mutate their receiver and return an `error`
  are modelled as functions returning `Option String × State`, where the
  first component is the error (`none` = nil) and the second the state
  after the call.
-/

namespace Petri

/-- Association-list model of a Go map: `lookupA k m` returns the binding
of `k` (Go map read of a present key). -/
def lookupA {α : Type} (k : String) : List (String × α) → Option α
  | [] => none
  | (k2, v) :: rest => if k2 = k then some v else lookupA k rest

/-- Go map assignment `m[k] = v`: replace the binding of `k`, or insert it. -/
def setA {α : Type} (k : String) (v : α) : List (String × α) → List (String × α)
  | [] => [(k, v)]
  | (k2, v2) :: rest => if k2 = k then (k, v) :: rest else (k2, v2) :: setA k v rest

/-- Go `delete(m, k)`: remove the binding of `k`. -/
def delA {α : Type} (k : String) : List (String × α) → List (String × α)
  | [] => []
  | (k2, v2) :: rest => if k2 = k then rest else (k2, v2) :: delA k rest

/-- Bounded memory log (`pkg/memory`, `Memory` struct): a list of textual
entries plus a fixed capacity.  The `sync.RWMutex` guards the concurrent Go
accesses and has no sequential content. -/
structure Memory where
  memoryStream : List String
  capacity : Nat
  deriving DecidableEq

/-- NewMemory: empty stream with the given capacity. -/
def Memory.newMemory (capacity : Nat) : Memory := ⟨[], capacity⟩

/-- Memory.Store: append the entry, then evict the single oldest entry when
the stream exceeds the capacity.  The Go method always returns a nil error,
which is omitted. -/
def Memory.store (m : Memory) (data : String) : Memory :=
  if m.capacity < (m.memoryStream ++ [data]).length then
    { m with memoryStream := (m.memoryStream ++ [data]).drop 1 }
  else { m with memoryStream := m.memoryStream ++ [data] }

/-- Memory.GetAllMessages: returns a copy of the entries (copying a list is
the identity in the embedding). -/
def Memory.getAllMessages (m : Memory) : List String := m.memoryStream

/-- Folding Memory.Store over a list of entries, in order. -/
def Memory.storeAll (m : Memory) (xs : List String) : Memory := xs.foldl Memory.store m

/-- Characters matched by the Go regexp class \s, which is exactly
[\t\n\f\r ]: tab, newline, form feed (12), carriage return and space —
vertical tab is not included. -/
def isSpaceChar (c : Char) : Bool :=
  c = ' ' || c = '\t' || c = '\n' || c = '\r' || c = Char.ofNat 12

/-- Greedy match of the regexp fragment (\d*\.?\d+) at the head of the
character list: the captured numeral, or none when the fragment cannot match
here.  Mirrors the backtracking of the Go pattern: a maximal digit run, then
a dot only when at least one digit follows it. -/
def matchNumber (cs : List Char) : Option (List Char) :=
  let d1 := cs.takeWhile Char.isDigit
  let r1 := cs.dropWhile Char.isDigit
  match r1 with
  | '.' :: r2 =>
    let d2 := r2.takeWhile Char.isDigit
    if d2 ≠ [] then some (d1 ++ '.' :: d2)
    else if d1 ≠ [] then some d1 else none
  | _ => if d1 ≠ [] then some d1 else none

/-- Whether the first list occurs at the head of the second. -/
def startsList : List Char → List Char → Bool
  | [], _ => true
  | _ :: _, [] => false
  | p :: ps, c :: cs => p = c && startsList ps cs

/-- Leftmost search for the Go regexp ANSWER:\s*(\d*\.?\d+) used by
parseDonationResponse: at each position, try the literal marker, skip
whitespace, then match the numeral; on failure resume the scan one
character later, as regexp.FindStringSubmatch does. -/
def findAnswer : List Char → Option (List Char)
  | [] => none
  | c :: rest =>
    if startsList "ANSWER:".toList (c :: rest) then
      match matchNumber (((c :: rest).drop 7).dropWhile isSpaceChar) with
      | some num => some num
      | none => findAnswer rest
    else findAnswer rest

/-- Decimal value of a digit run. -/
def digitsToNat (ds : List Char) : Nat :=
  ds.foldl (fun n c => 10 * n + (c.toNat - '0'.toNat)) 0

/-- Value of a numeral captured by the pattern (digits with an optional
fraction part), standing in for strconv.ParseFloat, which cannot fail on the
strings the pattern produces; exact rationals stand in for float64. -/
def numToRat (cs : List Char) : ℚ :=
  let ip := cs.takeWhile Char.isDigit
  let rest := cs.dropWhile Char.isDigit
  match rest with
  | '.' :: fp => (digitsToNat ip : ℚ) + (digitsToNat fp : ℚ) / ((10 : ℚ) ^ fp.length)
  | _ => (digitsToNat ip : ℚ)

/-- parseDonationResponse (pkg/agent): extract the donation amount following
the ANSWER: marker, failing when the pattern is absent from the response. -/
def parseDonationResponse (response : String) : Except String ℚ :=
  match findAnswer response.toList with
  | none => Except.error ("could not find answer in response: " ++ response)
  | some num => Except.ok (numToRat num)

/-- DonorGameAgent.MakeDonationDecision (pkg/agent): `completed` is the
outcome of the LLM completion call for this donor (prompt construction and
the network call are external); a parsed amount exceeding the donor balance
is clamped to that balance. -/
def MakeDonationDecision (completed : Except String String) (donorResources : ℚ) :
    Except String ℚ :=
  match completed with
  | Except.error e => Except.error ("failed to generate response: " ++ e)
  | Except.ok response =>
    match parseDonationResponse response with
    | Except.error e => Except.error e
    | Except.ok amt => Except.ok (if donorResources < amt then donorResources else amt)

/-- DonorGameAgent: identity plus bounded memory log.  The strategy, model
and client fields only shape the prompt and are externalized into the
per-donor completion outcome passed to Step. -/
structure DonorGameAgent where
  id : String
  memory : Memory
  deriving DecidableEq

/-- BaseState (pkg/environment, generic variant): status, step counter
(Go uint32, only ever incremented, so modelled as Nat and named stepCount to
avoid clashing with the Step operations), and an abstract timestamp. -/
structure BaseState where
  status : String
  stepCount : Nat
  timestamp : Nat
  deriving DecidableEq

/-- DonorGameState: the embedded BaseState plus round counters, the resource
ledger (AgentResources) and the donation outcome counters. -/
structure DonorGameState where
  baseState : BaseState
  round : Nat
  totalRounds : Nat
  resources : List (String × ℚ)
  successfulDonations : Nat
  failedDonations : Nat
  deriving DecidableEq

/-- DonorGameEnvironment: roster, state, and the construction parameters. -/
structure DonorGameEnvironment where
  agents : List DonorGameAgent
  state : DonorGameState
  roundsPerGen : Nat
  donationMult : ℚ
  initialBalance : ℚ
  deriving DecidableEq

/-- donation record (transient, per round); err none means success.  The Go
struct zero values fill the recipient and amount of an error record. -/
structure Donation where
  donorID : String
  recipientID : String
  amount : ℚ
  err : Option String
  deriving DecidableEq

/-- Go read AgentResources[id]: the float64 zero value when absent. -/
def lookupD (res : List (String × ℚ)) (id : String) : ℚ := (lookupA id res).getD 0

/-- NewDonorGameEnvironment: empty roster, idle state, empty ledger. -/
def NewDonorGameEnvironment (roundsPerGen : Nat) (donationMult initialBalance : ℚ) :
    DonorGameEnvironment :=
  { agents := []
    state := { baseState := { status := "idle", stepCount := 0, timestamp := 0 }
               round := 0
               totalRounds := 0
               resources := []
               successfulDonations := 0
               failedDonations := 0 }
    roundsPerGen := roundsPerGen
    donationMult := donationMult
    initialBalance := initialBalance }

/-- DonorGameEnvironment.AddAgent: append to the roster and seed the ledger
entry with the initial balance.  The Go method performs no duplicate check
and always returns a nil error. -/
def DonorGameEnvironment.AddAgent (e : DonorGameEnvironment) (a : DonorGameAgent) :
    Option String × DonorGameEnvironment :=
  (none,
   { e with
     agents := e.agents ++ [a]
     state := { e.state with resources := setA a.id e.initialBalance e.state.resources } })

/-- Consecutive pairing (agents[2k] donor, agents[2k+1] recipient) of the
already-shuffled snapshot. -/
def mkPairs {α : Type} : List α → List (α × α)
  | a :: b :: rest => (a, b) :: mkPairs rest
  | _ => []

/-- One pair's donation record, as emitted onto the result channel: a
decision error becomes an error record (recipient and amount left at their
Go zero values), a successful decision a record carrying the clamped
amount. -/
def decideRecord (st : DonorGameState) (respond : String → Except String String)
    (p : DonorGameAgent × DonorGameAgent) : Donation :=
  match MakeDonationDecision (respond p.1.id) (lookupD st.resources p.1.id) with
  | Except.error e =>
    { donorID := p.1.id, recipientID := "", amount := 0,
      err := some ("donor " ++ p.1.id ++ " error: " ++ e) }
  | Except.ok amt =>
    { donorID := p.1.id, recipientID := p.2.id, amount := amt, err := none }

/-- All records of one round, in pair order (channel arrival order only
permutes them; the counters and the per-record application below do not
depend on that permutation). -/
def stepRecords (st : DonorGameState) (respond : String → Except String String)
    (shuffled : List DonorGameAgent) : List Donation :=
  (mkPairs shuffled).map (decideRecord st respond)

/-- The successful records, as collected into the donations slice. -/
def stepDonations (st : DonorGameState) (respond : String → Except String String)
    (shuffled : List DonorGameAgent) : List Donation :=
  (stepRecords st respond shuffled).filter (fun r => !r.err.isSome)

/-- How many records of the round carried an error. -/
def stepFailedCount (st : DonorGameState) (respond : String → Except String String)
    (shuffled : List DonorGameAgent) : Nat :=
  ((stepRecords st respond shuffled).filter (fun r => r.err.isSome)).length

/-- Ledger mutation of one successful record: debit the amount from the
donor, credit amount times the multiplier to the recipient. -/
def applyDonationState (mult : ℚ) (st : DonorGameState) (d : Donation) : DonorGameState :=
  let res1 := setA d.donorID (lookupD st.resources d.donorID - d.amount) st.resources
  let res2 := setA d.recipientID (lookupD res1 d.recipientID + d.amount * mult) res1
  { st with resources := res2 }

/-- Provenance line stored in the donor memory (the Go %.2f rendering of the
numbers is abstracted to exact rational rendering). -/
def donorLine (pct amt : ℚ) (recipientID : String) (newBal : ℚ) : String :=
  "Round: I donated " ++ toString pct ++ "% (" ++ toString amt ++
    ") of my resources to " ++ recipientID ++ ", leaving me with " ++
    toString newBal ++ " resources"

/-- Provenance line stored in the recipient memory. -/
def recipientLine (pct amt multAmt : ℚ) (donorID : String) (newBal : ℚ) : String :=
  "Round: I received " ++ toString pct ++ "% (" ++ toString amt ++
    " multiplied to " ++ toString multAmt ++ ") from " ++ donorID ++
    ", bringing my resources to " ++ toString newBal

/-- The memory-update loop over the roster: each agent matching the donor id
stores the donor line, each agent matching the recipient id stores the
recipient line and the loop breaks there (the Go break statement: agents
after the first recipient match are not visited). -/
def updateMemories (donorID recipientID : String) (dLine rLine : String) :
    List DonorGameAgent → List DonorGameAgent
  | [] => []
  | a :: rest =>
    let a1 := if a.id = donorID then { a with memory := a.memory.store dLine } else a
    let a2 := if a.id = recipientID then { a1 with memory := a1.memory.store rLine } else a1
    if a.id = recipientID then a2 :: rest
    else a2 :: updateMemories donorID recipientID dLine rLine rest

/-- Application of one successful record: percentage from the pre-debit
balance, ledger mutation, then the memory-update loop reading the post-
mutation balances. -/
def applyDonationFull (mult : ℚ) (p : DonorGameState × List DonorGameAgent)
    (d : Donation) : DonorGameState × List DonorGameAgent :=
  let pct := d.amount / lookupD p.1.resources d.donorID
  let st2 := applyDonationState mult p.1 d
  let dLine := donorLine pct d.amount d.recipientID (lookupD st2.resources d.donorID)
  let rLine := recipientLine pct d.amount (d.amount * mult) d.donorID
    (lookupD st2.resources d.recipientID)
  (st2, updateMemories d.donorID d.recipientID dLine rLine p.2)

/-- The state after collection: failed and successful counters advanced by
the counts of the round's records, then the round counters advanced once
(the Go code interleaves the counter increments with collection; only their
net effect is state). -/
def stepCountedState (e : DonorGameEnvironment)
    (respond : String → Except String String)
    (shuffled : List DonorGameAgent) : DonorGameState :=
  { e.state with
    failedDonations := e.state.failedDonations + stepFailedCount e.state respond shuffled
    successfulDonations :=
      e.state.successfulDonations + (stepDonations e.state respond shuffled).length
    round := e.state.round + 1
    totalRounds := e.state.totalRounds + 1 }

/-- DonorGameEnvironment.Step, one round: even-roster check on the shuffled
snapshot, decision records for every pair, failure and success counting,
round counter advancement, application of the successful records, round
reset at the generation boundary.  The shuffle outcome and the per-donor
completion outcomes are explicit parameters; the error and the resulting
environment are both returned (the Go method mutates its receiver). -/
def DonorGameEnvironment.Step (e : DonorGameEnvironment)
    (shuffled : List DonorGameAgent) (respond : String → Except String String) :
    Option String × DonorGameEnvironment :=
  if shuffled.length % 2 ≠ 0 then (some "need even number of agents", e)
  else
    let p := (stepDonations e.state respond shuffled).foldl
      (applyDonationFull e.donationMult) (stepCountedState e respond shuffled, e.agents)
    let st4 := if e.roundsPerGen ≤ p.1.round then { p.1 with round := 0 } else p.1
    (none, { e with state := st4, agents := p.2 })

/-- Comparison used by GetTopAgents: resources descending (a total order
consistent with the Go sort.Slice comparator). -/
def descBal (a b : String × ℚ) : Prop := b.2 ≤ a.2

instance : DecidableRel descBal := fun a b => inferInstanceAs (Decidable (b.2 ≤ a.2))

instance : IsTotal (String × ℚ) descBal := ⟨fun a b => le_total b.2 a.2⟩

instance : IsTrans (String × ℚ) descBal := ⟨fun _ _ _ h1 h2 => le_trans h2 h1⟩

/-- The sorted score slice truncated to n entries; the argument list is the
ledger in its (unspecified) Go map scan order. -/
def topScores (resources : List (String × ℚ)) (n : Nat) : List (String × ℚ) :=
  (List.insertionSort descBal resources).take n

/-- DonorGameEnvironment.GetTopAgents: ids of the top-n scores. -/
def GetTopAgents (resources : List (String × ℚ)) (n : Nat) : List String :=
  (topScores resources n).map Prod.fst

/-- The agents of a pair list, in order (inverse of the consecutive
pairing). -/
def pairList {α : Type} : List (α × α) → List α
  | [] => []
  | (a, b) :: rest => a :: b :: pairList rest

/-- Disjointness of two pairs of agents, by id. -/
def pairDisj (p q : DonorGameAgent × DonorGameAgent) : Prop :=
  p.1.id ≠ q.1.id ∧ p.1.id ≠ q.2.id ∧ p.2.id ≠ q.1.id ∧ p.2.id ≠ q.2.id

/-- Id-disjointness of two donation records, conditional on both being
successful (error records carry Go zero values in their recipient field). -/
def recDisj (r s : Donation) : Prop :=
  r.err = none → s.err = none →
    r.donorID ≠ s.donorID ∧ r.donorID ≠ s.recipientID ∧
    r.recipientID ≠ s.donorID ∧ r.recipientID ≠ s.recipientID

/-- The state reached by Step after applying a prefix of the successful
records, starting from the counted state. -/
def applyUpTo (e : DonorGameEnvironment) (respond : String → Except String String)
    (shuffled : List DonorGameAgent) (ds : List Donation) : DonorGameState :=
  (ds.foldl (applyDonationFull e.donationMult)
    (stepCountedState e respond shuffled, e.agents)).1

/-- Concrete fixture: agent A with the construction-time memory capacity. -/
def agentA : DonorGameAgent := ⟨"A", Memory.newMemory 100⟩

/-- Concrete fixture: agent B. -/
def agentB : DonorGameAgent := ⟨"B", Memory.newMemory 100⟩

/-- Fixture environment with roster order [A, B], 10 rounds per generation,
multiplier 2, initial balance 10. -/
def envAB : DonorGameEnvironment :=
  (((NewDonorGameEnvironment 10 2 10).AddAgent agentA).2.AddAgent agentB).2

/-- Fixture environment with roster order [B, A]. -/
def envBA : DonorGameEnvironment :=
  (((NewDonorGameEnvironment 10 2 10).AddAgent agentB).2.AddAgent agentA).2

/-- Fixture completions: agent A answers a donation of 5, everyone else
fails with a provider error. -/
def respondA : String → Except String String :=
  fun i => if i = "A" then Except.ok "ANSWER: 5" else Except.error "provider failure"

/-- Fixture completions: every donor gets a completion without any
ANSWER: line. -/
def respondNoAnswer : String → Except String String :=
  fun _ => Except.ok "mock response"

/-- The record the fixture round A donates 5 to B produces. -/
def donAB : Donation :=
  { donorID := "A", recipientID := "B", amount := numToRat ['5'], err := none }

/-- Message (pkg/messaging): sender (the Go field From), recipient list
(the Go field To, empty means broadcast) and an opaque content payload; the
timestamp does not influence delivery and is omitted. -/
structure Message where
  sender : String
  recipients : List String
  content : String
  deriving DecidableEq

/-- A subscriber channel: the queued messages and the channel capacity
fixed when the channel was made. -/
structure Queue where
  msgs : List Message
  cap : Nat
  deriving DecidableEq

/-- SimpleBroker: the subscribers map from agent id to channel, with the
list order standing for the unspecified Go map scan order. -/
structure SimpleBroker where
  subscribers : List (String × Queue)
  deriving DecidableEq

/-- NewBroker: empty subscribers map. -/
def NewBroker : SimpleBroker := ⟨[]⟩

/-- Non-blocking channel send: enqueue when below capacity, else fail. -/
def trySend (q : Queue) (m : Message) : Option Queue :=
  if q.msgs.length < q.cap then some { q with msgs := q.msgs ++ [m] } else none

/-- The delivery loop of Publish over the resolved recipient list: skip
ids without a subscription, stop with an error at the first saturated
channel (deliveries already made are kept; the apostrophe of the Go error
text is dropped). -/
def deliverAll (b : SimpleBroker) (m : Message) : List String → Option String × SimpleBroker
  | [] => (none, b)
  | rid :: rest =>
    match lookupA rid b.subscribers with
    | none => deliverAll b m rest
    | some q =>
      match trySend q m with
      | none => (some ("recipient " ++ rid ++ " channel is full"), b)
      | some q2 => deliverAll { subscribers := setA rid q2 b.subscribers } m rest

/-- SimpleBroker.Publish: the explicit recipients, or on an empty To list
every subscriber except the sender (broadcast), then the delivery loop. -/
def SimpleBroker.Publish (b : SimpleBroker) (m : Message) :
    Option String × SimpleBroker :=
  deliverAll b m
    (if m.recipients.isEmpty then
      (b.subscribers.map Prod.fst).filter (fun s => s ≠ m.sender)
     else m.recipients)

/-- SimpleBroker.Subscribe: fails when the id is already present. -/
def SimpleBroker.Subscribe (b : SimpleBroker) (agentID : String) (ch : Queue) :
    Option String × SimpleBroker :=
  match lookupA agentID b.subscribers with
  | some _ => (some ("agent " ++ agentID ++ " is already subscribed"), b)
  | none => (none, ⟨setA agentID ch b.subscribers⟩)

/-- SimpleBroker.Unsubscribe: fails when the id is absent. -/
def SimpleBroker.Unsubscribe (b : SimpleBroker) (agentID : String) :
    Option String × SimpleBroker :=
  match lookupA agentID b.subscribers with
  | none => (some ("agent " ++ agentID ++ " is not subscribed"), b)
  | some _ => (none, ⟨delA agentID b.subscribers⟩)

/-- Fixture broker: a and b subscribed, each with a one-slot channel. -/
def brokerAB : SimpleBroker :=
  ((NewBroker.Subscribe "a" ⟨[], 1⟩).2.Subscribe "b" ⟨[], 1⟩).2

/-- Fixture broadcast from a. -/
def msgBroadcast : Message := ⟨"a", [], "hello"⟩

/-- Fixture direct message to a non-existent id. -/
def msgGhost : Message := ⟨"a", ["zz"], "hi"⟩

/-- Fixture broker for the C10 counterexample: a has a one-slot channel,
b an unbuffered (zero-capacity) channel. -/
def brokerFull : SimpleBroker :=
  ((NewBroker.Subscribe "a" ⟨[], 1⟩).2.Subscribe "b" ⟨[], 0⟩).2

/-- Fixture self-addressed message listing the saturated b first. -/
def msgSelfAfterFull : Message := ⟨"a", ["b", "a"], "x"⟩

/-- Fixture broker with only a subscribed. -/
def brokerSelf : SimpleBroker := (NewBroker.Subscribe "a" ⟨[], 1⟩).2

/-- Fixture message from a addressed to a alone. -/
def msgSelf : Message := ⟨"a", ["a"], "x"⟩

/-- BaseEnvironment (generic variant, pkg/environment): the roster and a
state value; the agent type is abstract. -/
structure BaseEnvironment (α : Type) where
  agents : List α
  state : BaseState
  deriving DecidableEq

/-- NewBaseEnvironment with the given initial state. -/
def NewBaseEnvironment {α : Type} (initialState : BaseState) : BaseEnvironment α :=
  { agents := [], state := initialState }

/-- BaseEnvironment.Step (generic variant): runs every agent's Run
concurrently and waits for all to finish; the per-agent effect is the `run`
parameter.  The method reads no field of the state and writes none. -/
def BaseEnvironment.Step {α : Type} (run : α → α) (e : BaseEnvironment α) :
    BaseEnvironment α :=
  { e with agents := e.agents.map run }

theorem lookupA_setA_self {α : Type} (k : String) (v : α) (l : List (String × α)) :
    lookupA k (setA k v l) = some v := by
  induction l with
  | nil => simp [setA, lookupA]
  | cons p rest ih =>
    obtain ⟨k2, v2⟩ := p
    by_cases h : k2 = k
    · simp [setA, lookupA, h]
    · simp [setA, lookupA, h, ih]

theorem lookupA_setA_ne {α : Type} {k k2 : String} (v : α) (l : List (String × α))
    (h : k2 ≠ k) : lookupA k2 (setA k v l) = lookupA k2 l := by
  have h' : ¬(k = k2) := fun hh => h hh.symm
  induction l with
  | nil => simp [setA, lookupA, h']
  | cons p rest ih =>
    obtain ⟨k3, v3⟩ := p
    by_cases h3 : k3 = k
    · subst h3
      simp [setA, lookupA, h']
    · simp only [setA, if_neg h3, lookupA]
      by_cases h4 : k3 = k2
      · simp [h4]
      · simp [h4, ih]

theorem Memory.store_capacity (m : Memory) (x : String) :
    (m.store x).capacity = m.capacity := by
  unfold Memory.store
  split <;> rfl

theorem Memory.store_stream (m : Memory) (x : String)
    (h : m.memoryStream.length ≤ m.capacity) :
    (m.store x).memoryStream =
      (m.memoryStream ++ [x]).drop ((m.memoryStream ++ [x]).length - m.capacity) := by
  unfold Memory.store
  by_cases hc : m.capacity < (m.memoryStream ++ [x]).length
  · have h1 : (m.memoryStream ++ [x]).length - m.capacity = 1 := by
      simp only [List.length_append, List.length_singleton] at hc ⊢
      omega
    rw [if_pos hc, h1]
  · have h1 : (m.memoryStream ++ [x]).length - m.capacity = 0 := by
      simp only [List.length_append, List.length_singleton] at hc ⊢
      omega
    rw [if_neg hc, h1]
    rfl

theorem Memory.storeAll_stream : ∀ (xs : List String) (m : Memory),
    m.memoryStream.length ≤ m.capacity →
    (m.storeAll xs).capacity = m.capacity ∧
    (m.storeAll xs).memoryStream =
      (m.memoryStream ++ xs).drop ((m.memoryStream ++ xs).length - m.capacity) := by
  intro xs
  induction xs with
  | nil =>
    intro m h
    have h0 : m.memoryStream.length - m.capacity = 0 := by omega
    simp [Memory.storeAll, h0]
  | cons x xs ih =>
    intro m h
    have hstep : m.storeAll (x :: xs) = (m.store x).storeAll xs := by
      simp [Memory.storeAll, List.foldl_cons]
    have hc := Memory.store_capacity m x
    have hs := Memory.store_stream m x h
    have hlen : (m.store x).memoryStream.length ≤ (m.store x).capacity := by
      rw [hs, hc, List.length_drop]
      omega
    obtain ⟨ih1, ih2⟩ := ih (m.store x) hlen
    refine ⟨by rw [hstep, ih1, hc], ?_⟩
    rw [hstep, ih2, hs, hc]
    have ha : (m.memoryStream ++ [x]).length - m.capacity ≤ (m.memoryStream ++ [x]).length := by
      omega
    rw [← List.drop_append_of_le_length ha, List.drop_drop]
    have harr : (m.memoryStream ++ [x]) ++ xs = m.memoryStream ++ x :: xs := by
      simp
    rw [harr]
    congr 1
    simp only [List.length_append, List.length_drop, List.length_singleton,
      List.length_cons, List.length_nil]
    omega

/-- C4: starting from an empty log of capacity `c`, storing `c + k` entries
leaves exactly the most recent `c` entries in insertion order, and after
every intermediate store the log holds at most `c` entries. -/
theorem memory_bounded_eviction (c k : Nat) (hc : 1 ≤ c) (xs : List String)
    (hlen : xs.length = c + k) :
    ((Memory.newMemory c).storeAll xs).getAllMessages = xs.drop k ∧
    ((Memory.newMemory c).storeAll xs).getAllMessages.length = c ∧
    ∀ n : Nat, ((Memory.newMemory c).storeAll (xs.take n)).getAllMessages.length ≤ c := by
  have hbase : (Memory.newMemory c).memoryStream.length ≤ (Memory.newMemory c).capacity := by
    simp [Memory.newMemory]
  obtain ⟨_, h2⟩ := Memory.storeAll_stream xs (Memory.newMemory c) hbase
  have hk : xs.length - c = k := by omega
  constructor
  · rw [Memory.getAllMessages, h2]
    simp [Memory.newMemory, hk]
  constructor
  · rw [Memory.getAllMessages, h2]
    simp only [Memory.newMemory, List.nil_append, List.length_drop]
    omega
  · intro n
    obtain ⟨_, htake⟩ := Memory.storeAll_stream (xs.take n) (Memory.newMemory c) hbase
    rw [Memory.getAllMessages, htake]
    simp only [Memory.newMemory, List.nil_append, List.length_drop]
    omega

/-- Witness for C4 at capacity 2 with 3 stored entries. -/
theorem memory_bounded_eviction_witness :
    ((Memory.newMemory 2).storeAll ["a", "b", "c"]).getAllMessages =
      (["a", "b", "c"] : List String).drop 1 :=
  (memory_bounded_eviction 2 1 (by decide) ["a", "b", "c"] rfl).1

theorem lookupD_setA_self (res : List (String × ℚ)) (k : String) (v : ℚ) :
    lookupD (setA k v res) k = v := by
  simp [lookupD, lookupA_setA_self]

theorem lookupD_setA_ne (res : List (String × ℚ)) {k k2 : String} (v : ℚ)
    (h : k2 ≠ k) : lookupD (setA k v res) k2 = lookupD res k2 := by
  simp [lookupD, lookupA_setA_ne v res h]

theorem applyDonationState_donor (mult : ℚ) (st : DonorGameState) (d : Donation)
    (h : d.donorID ≠ d.recipientID) :
    lookupD (applyDonationState mult st d).resources d.donorID =
      lookupD st.resources d.donorID - d.amount := by
  unfold applyDonationState
  rw [lookupD_setA_ne _ _ h, lookupD_setA_self]

theorem applyDonationState_recipient (mult : ℚ) (st : DonorGameState) (d : Donation)
    (h : d.donorID ≠ d.recipientID) :
    lookupD (applyDonationState mult st d).resources d.recipientID =
      lookupD st.resources d.recipientID + d.amount * mult := by
  unfold applyDonationState
  rw [lookupD_setA_self, lookupD_setA_ne _ _ (fun hh => h hh.symm)]

theorem applyDonationState_other (mult : ℚ) (st : DonorGameState) (d : Donation)
    {x : String} (h1 : x ≠ d.donorID) (h2 : x ≠ d.recipientID) :
    lookupD (applyDonationState mult st d).resources x = lookupD st.resources x := by
  unfold applyDonationState
  rw [lookupD_setA_ne _ _ h2, lookupD_setA_ne _ _ h1]

theorem applyDonationFull_fst (mult : ℚ) (p : DonorGameState × List DonorGameAgent)
    (d : Donation) : (applyDonationFull mult p d).1 = applyDonationState mult p.1 d := rfl

/-- Records whose donor and recipient differ from `x` leave the balance of
`x` unchanged through the application fold. -/
theorem foldl_apply_preserve (mult : ℚ) (x : String) :
    ∀ (ds : List Donation) (p : DonorGameState × List DonorGameAgent),
    (∀ r ∈ ds, x ≠ r.donorID ∧ x ≠ r.recipientID) →
    lookupD (ds.foldl (applyDonationFull mult) p).1.resources x = lookupD p.1.resources x := by
  intro ds
  induction ds with
  | nil => intro p _; rfl
  | cons r rest ih =>
    intro p h
    have hr := h r (List.mem_cons_self r rest)
    have hrest := fun s hs => h s (List.mem_cons_of_mem r hs)
    rw [List.foldl_cons, ih _ hrest, applyDonationFull_fst,
      applyDonationState_other mult p.1 r hr.1 hr.2]

theorem pairList_mkPairs_sublist {α : Type} :
    ∀ l : List α, List.Sublist (pairList (mkPairs l)) l
  | [] => by simp [mkPairs, pairList]
  | [a] => by simp [mkPairs, pairList]
  | a :: b :: rest => by
    have ih := pairList_mkPairs_sublist rest
    simp only [mkPairs, pairList]
    exact (ih.cons₂ b).cons₂ a

theorem mem_pairList {α : Type} (ps : List (α × α)) (p : α × α) (h : p ∈ ps) :
    p.1 ∈ pairList ps ∧ p.2 ∈ pairList ps := by
  induction ps with
  | nil => cases h
  | cons q rest ih =>
    obtain ⟨q1, q2⟩ := q
    rcases List.mem_cons.mp h with h1 | h1
    · subst h1
      exact ⟨List.mem_cons_self _ _, List.mem_cons_of_mem _ (List.mem_cons_self _ _)⟩
    · obtain ⟨ih1, ih2⟩ := ih h1
      exact ⟨List.mem_cons_of_mem _ (List.mem_cons_of_mem _ ih1),
        List.mem_cons_of_mem _ (List.mem_cons_of_mem _ ih2)⟩

theorem pairwise_of_pairList_nodup :
    ∀ ps : List (DonorGameAgent × DonorGameAgent),
    ((pairList ps).map DonorGameAgent.id).Nodup →
    List.Pairwise pairDisj ps ∧ ∀ p ∈ ps, p.1.id ≠ p.2.id := by
  intro ps
  induction ps with
  | nil => intro _; exact ⟨List.Pairwise.nil, by intro p h; cases h⟩
  | cons q rest ih =>
    obtain ⟨q1, q2⟩ := q
    intro h
    simp only [pairList, List.map_cons, List.nodup_cons, List.mem_cons,
      List.mem_map] at h
    obtain ⟨h1, h2, h3⟩ := h
    obtain ⟨ihp, ihs⟩ := ih h3
    have hq1 : q1.id ≠ q2.id := fun hh => h1 (Or.inl hh)
    have hq1m : ∀ a ∈ pairList rest, q1.id ≠ a.id := by
      intro a ha hh
      exact h1 (Or.inr ⟨a, ha, hh.symm⟩)
    have hq2m : ∀ a ∈ pairList rest, q2.id ≠ a.id := by
      intro a ha hh
      exact h2 ⟨a, ha, hh.symm⟩
    constructor
    · refine List.Pairwise.cons ?_ ihp
      intro p hp
      obtain ⟨hm1, hm2⟩ := mem_pairList rest p hp
      exact ⟨hq1m p.1 hm1, hq1m p.2 hm2, hq2m p.1 hm1, hq2m p.2 hm2⟩
    · intro p hp
      rcases List.mem_cons.mp hp with hh | hh
      · rw [hh]
        exact hq1
      · exact ihs p hh

/-- A record's donor id is always the donor agent's id, and on success the
recipient id is the recipient agent's id. -/
theorem decideRecord_ids (st : DonorGameState) (respond : String → Except String String)
    (p : DonorGameAgent × DonorGameAgent) :
    (decideRecord st respond p).donorID = p.1.id ∧
    ((decideRecord st respond p).err = none →
      (decideRecord st respond p).recipientID = p.2.id) := by
  unfold decideRecord
  cases MakeDonationDecision (respond p.1.id) (lookupD st.resources p.1.id) with
  | error e => exact ⟨rfl, by intro h; cases h⟩
  | ok amt => exact ⟨rfl, fun _ => rfl⟩

/-- A donation decision that returns an amount returned one at most the
donor balance it was given (the clamp). -/
theorem MakeDonationDecision_clamp (completed : Except String String) (bal amt : ℚ)
    (h : MakeDonationDecision completed bal = Except.ok amt) : amt ≤ bal := by
  unfold MakeDonationDecision at h
  cases completed with
  | error e => simp at h
  | ok response =>
    dsimp only at h
    cases hp : parseDonationResponse response with
    | error e => rw [hp] at h; simp at h
    | ok amt2 =>
      rw [hp] at h
      injection h with h2
      by_cases hlt : bal < amt2
      · rw [if_pos hlt] at h2
        rw [← h2]
      · rw [if_neg hlt] at h2
        rw [← h2]
        exact le_of_not_lt hlt

/-- A successful record's amount is clamped to the donor's balance as read
from the pre-round ledger. -/
theorem decideRecord_clamp (st : DonorGameState) (respond : String → Except String String)
    (p : DonorGameAgent × DonorGameAgent)
    (h : (decideRecord st respond p).err = none) :
    (decideRecord st respond p).amount ≤
      lookupD st.resources (decideRecord st respond p).donorID := by
  unfold decideRecord at h ⊢
  cases hm : MakeDonationDecision (respond p.1.id) (lookupD st.resources p.1.id) with
  | error e =>
    rw [hm] at h
    simp at h
  | ok amt =>
    dsimp only
    exact MakeDonationDecision_clamp _ _ _ hm

theorem recDisj_of_pairDisj (st : DonorGameState) (respond : String → Except String String)
    {p q : DonorGameAgent × DonorGameAgent} (h : pairDisj p q) :
    recDisj (decideRecord st respond p) (decideRecord st respond q) := by
  intro hp hq
  obtain ⟨hd1, hr1⟩ := decideRecord_ids st respond p
  obtain ⟨hd2, hr2⟩ := decideRecord_ids st respond q
  rw [hd1, hd2, hr1 hp, hr2 hq]
  exact ⟨h.1, h.2.1, h.2.2.1, h.2.2.2⟩

/-- Under distinct agent ids in the shuffled snapshot, the records of one
round are pairwise id-disjoint. -/
theorem pairwise_recDisj (st : DonorGameState) (respond : String → Except String String)
    (shuffled : List DonorGameAgent)
    (hnd : (shuffled.map DonorGameAgent.id).Nodup) :
    List.Pairwise recDisj (stepRecords st respond shuffled) := by
  have hsubl := (pairList_mkPairs_sublist shuffled).map DonorGameAgent.id
  have hnodup := hnd.sublist hsubl
  obtain ⟨hpw, _⟩ := pairwise_of_pairList_nodup (mkPairs shuffled) hnodup
  rw [stepRecords, List.pairwise_map]
  exact hpw.imp (recDisj_of_pairDisj st respond)

theorem stepDonations_err {st : DonorGameState} {respond : String → Except String String}
    {shuffled : List DonorGameAgent} {r : Donation}
    (h : r ∈ stepDonations st respond shuffled) : r.err = none := by
  unfold stepDonations at h
  rw [List.mem_filter] at h
  simpa using h.2

theorem stepDonations_mem_pairs {st : DonorGameState} {respond : String → Except String String}
    {shuffled : List DonorGameAgent} {r : Donation}
    (h : r ∈ stepDonations st respond shuffled) :
    ∃ p ∈ mkPairs shuffled, decideRecord st respond p = r := by
  unfold stepDonations stepRecords at h
  rw [List.mem_filter] at h
  exact List.mem_map.mp h.1

/-- Both ids of a successful record of the round differ from both ids of any
pair of the round other than its own: donor and recipient of one pair are
untouched by the other applications. -/
theorem pairwise_recDisj_donations (st : DonorGameState)
    (respond : String → Except String String) (shuffled : List DonorGameAgent)
    (hnd : (shuffled.map DonorGameAgent.id).Nodup) :
    List.Pairwise recDisj (stepDonations st respond shuffled) :=
  (pairwise_recDisj st respond shuffled hnd).filter _

theorem applyUpTo_snoc (e : DonorGameEnvironment) (respond : String → Except String String)
    (shuffled : List DonorGameAgent) (ds : List Donation) (d : Donation) :
    applyUpTo e respond shuffled (ds ++ [d]) =
      applyDonationState e.donationMult (applyUpTo e respond shuffled ds) d := by
  unfold applyUpTo
  rw [List.foldl_append]
  rfl

/-- C1: for a successful donation record d applied during a donor-game Step
(split the collected records as pre ++ d :: post, applied in that order),
relative to the state just before d is applied: the amount is at most the
donor balance, the donor balance decreases by exactly the amount, and the
recipient balance increases by exactly amount times the donation
multiplier.  The last conjunct ties the fold to the Step result: the
resources Step returns are those of the full fold.  Distinct ids in the
shuffled roster snapshot are the standing ledger invariant. -/
theorem step_ledger_conservation (e : DonorGameEnvironment)
    (shuffled : List DonorGameAgent) (respond : String → Except String String)
    (hnd : (shuffled.map DonorGameAgent.id).Nodup)
    (heven : shuffled.length % 2 = 0)
    (pre post : List Donation) (d : Donation)
    (hsplit : stepDonations e.state respond shuffled = pre ++ d :: post) :
    d.amount ≤ lookupD (applyUpTo e respond shuffled pre).resources d.donorID ∧
    lookupD (applyUpTo e respond shuffled (pre ++ [d])).resources d.donorID =
      lookupD (applyUpTo e respond shuffled pre).resources d.donorID - d.amount ∧
    lookupD (applyUpTo e respond shuffled (pre ++ [d])).resources d.recipientID =
      lookupD (applyUpTo e respond shuffled pre).resources d.recipientID +
        d.amount * e.donationMult ∧
    (e.Step shuffled respond).2.state.resources =
      (applyUpTo e respond shuffled (stepDonations e.state respond shuffled)).resources := by
  have hmemd : d ∈ stepDonations e.state respond shuffled := by
    rw [hsplit]
    exact List.mem_append_right pre (List.mem_cons_self d post)
  have hderr : d.err = none := stepDonations_err hmemd
  obtain ⟨pd, hpd, hpdeq⟩ := stepDonations_mem_pairs hmemd
  have hsubl := (pairList_mkPairs_sublist shuffled).map DonorGameAgent.id
  have hnodup := hnd.sublist hsubl
  obtain ⟨_, hself⟩ := pairwise_of_pairList_nodup (mkPairs shuffled) hnodup
  obtain ⟨hdid, hrid⟩ := decideRecord_ids e.state respond pd
  rw [hpdeq] at hdid hrid
  have hdd : d.donorID ≠ d.recipientID := by
    rw [hdid, hrid hderr]
    exact hself pd hpd
  have hpw := pairwise_recDisj_donations e.state respond shuffled hnd
  rw [hsplit] at hpw
  have hcross := (List.pairwise_append.mp hpw).2.2
  have hpre : ∀ r ∈ pre, d.donorID ≠ r.donorID ∧ d.donorID ≠ r.recipientID ∧
      d.recipientID ≠ r.donorID ∧ d.recipientID ≠ r.recipientID := by
    intro r hr
    have hmem2 : r ∈ stepDonations e.state respond shuffled := by
      rw [hsplit]
      exact List.mem_append_left _ hr
    have hrerr : r.err = none := stepDonations_err hmem2
    obtain ⟨h1, h2, h3, h4⟩ := hcross r hr d (List.mem_cons_self d post) hrerr hderr
    exact ⟨fun hh => h1 hh.symm, fun hh => h3 hh.symm,
      fun hh => h2 hh.symm, fun hh => h4 hh.symm⟩
  have hpres_donor : lookupD (applyUpTo e respond shuffled pre).resources d.donorID =
      lookupD e.state.resources d.donorID := by
    unfold applyUpTo
    rw [foldl_apply_preserve e.donationMult d.donorID pre _
      (fun r hr => ⟨(hpre r hr).1, (hpre r hr).2.1⟩)]
    rfl
  have hpres_recip : lookupD (applyUpTo e respond shuffled pre).resources d.recipientID =
      lookupD e.state.resources d.recipientID := by
    unfold applyUpTo
    rw [foldl_apply_preserve e.donationMult d.recipientID pre _
      (fun r hr => ⟨(hpre r hr).2.2.1, (hpre r hr).2.2.2⟩)]
    rfl
  refine ⟨?_, ?_, ?_, ?_⟩
  · rw [hpres_donor]
    have := decideRecord_clamp e.state respond pd (by rw [hpdeq]; exact hderr)
    rw [hpdeq] at this
    exact this
  · rw [applyUpTo_snoc]
    exact applyDonationState_donor _ _ _ hdd
  · rw [applyUpTo_snoc]
    exact applyDonationState_recipient _ _ _ hdd
  · unfold DonorGameEnvironment.Step
    rw [if_neg (by omega)]
    dsimp only
    unfold applyUpTo
    split <;> rfl

/-- Witness for C1: two agents with balances 10, A donates 5 to B with
multiplier 2; the single collected record, applied from the empty prefix. -/
theorem step_ledger_conservation_witness :
    donAB.amount ≤ lookupD (applyUpTo envAB respondA [agentA, agentB] []).resources
      donAB.donorID ∧
    lookupD (applyUpTo envAB respondA [agentA, agentB] ([] ++ [donAB])).resources
        donAB.donorID =
      lookupD (applyUpTo envAB respondA [agentA, agentB] []).resources donAB.donorID -
        donAB.amount ∧
    lookupD (applyUpTo envAB respondA [agentA, agentB] ([] ++ [donAB])).resources
        donAB.recipientID =
      lookupD (applyUpTo envAB respondA [agentA, agentB] []).resources donAB.recipientID +
        donAB.amount * envAB.donationMult ∧
    (envAB.Step [agentA, agentB] respondA).2.state.resources =
      (applyUpTo envAB respondA [agentA, agentB]
        (stepDonations envAB.state respondA [agentA, agentB])).resources :=
  step_ledger_conservation envAB [agentA, agentB] respondA (by decide) (by decide)
    [] [] donAB (by decide)

/-- C2: a donor-game Step on an odd-sized roster snapshot returns the
odd-roster error and the unmodified environment; the ledger, round
counters and donation counters keep their prior values. -/
theorem step_odd_roster (e : DonorGameEnvironment) (shuffled : List DonorGameAgent)
    (respond : String → Except String String) (hodd : shuffled.length % 2 = 1) :
    e.Step shuffled respond = (some "need even number of agents", e) ∧
    (e.Step shuffled respond).2.state.resources = e.state.resources ∧
    (e.Step shuffled respond).2.state.round = e.state.round ∧
    (e.Step shuffled respond).2.state.totalRounds = e.state.totalRounds ∧
    (e.Step shuffled respond).2.state.successfulDonations = e.state.successfulDonations ∧
    (e.Step shuffled respond).2.state.failedDonations = e.state.failedDonations := by
  have h : e.Step shuffled respond = (some "need even number of agents", e) := by
    unfold DonorGameEnvironment.Step
    rw [if_pos (by omega)]
  rw [h]
  exact ⟨rfl, rfl, rfl, rfl, rfl, rfl⟩

/-- Witness for C2 at a one-agent roster. -/
theorem step_odd_roster_witness :
    envAB.Step [agentA] respondA = (some "need even number of agents", envAB) :=
  (step_odd_roster envAB [agentA] respondA (by decide)).1

/-- C5 (code bug): with roster order [B, A], a successful donation from A
to B stores a provenance line only in the memory of recipient B; the break
statement of the memory-update loop skips donor A because the recipient
precedes it in the roster.  The round itself succeeds with exactly this one
successful record. -/
theorem step_memory_break_bug :
    ((envBA.Step [agentA, agentB] respondA).2.agents.map
      (fun a => (a.id, a.memory.getAllMessages.length))) = [("B", 1), ("A", 0)] ∧
    (envBA.Step [agentA, agentB] respondA).1 = none ∧
    stepDonations envBA.state respondA [agentA, agentB] = [donAB] := by decide

/-- The application fold changes only the resource ledger: the round and
donation counters pass through. -/
theorem foldl_apply_counters (mult : ℚ) :
    ∀ (ds : List Donation) (p : DonorGameState × List DonorGameAgent),
    (ds.foldl (applyDonationFull mult) p).1.failedDonations = p.1.failedDonations ∧
    (ds.foldl (applyDonationFull mult) p).1.successfulDonations =
      p.1.successfulDonations ∧
    (ds.foldl (applyDonationFull mult) p).1.round = p.1.round ∧
    (ds.foldl (applyDonationFull mult) p).1.totalRounds = p.1.totalRounds := by
  intro ds
  induction ds with
  | nil => intro p; exact ⟨rfl, rfl, rfl, rfl⟩
  | cons r rest ih =>
    intro p
    rw [List.foldl_cons]
    obtain ⟨i1, i2, i3, i4⟩ := ih (applyDonationFull mult p r)
    exact ⟨i1, i2, i3, i4⟩

/-- On an even roster snapshot, the resources Step returns are those of the
application fold over the collected successful records. -/
theorem step_resources (e : DonorGameEnvironment) (shuffled : List DonorGameAgent)
    (respond : String → Except String String) (heven : shuffled.length % 2 = 0) :
    (e.Step shuffled respond).2.state.resources =
      (applyUpTo e respond shuffled (stepDonations e.state respond shuffled)).resources := by
  unfold DonorGameEnvironment.Step
  rw [if_neg (by omega)]
  dsimp only
  unfold applyUpTo
  split <;> rfl

/-- On an even roster snapshot, Step adds the error-record count to the
failed-donations counter. -/
theorem step_failed_count (e : DonorGameEnvironment) (shuffled : List DonorGameAgent)
    (respond : String → Except String String) (heven : shuffled.length % 2 = 0) :
    (e.Step shuffled respond).2.state.failedDonations =
      e.state.failedDonations + stepFailedCount e.state respond shuffled := by
  unfold DonorGameEnvironment.Step
  rw [if_neg (by omega)]
  dsimp only
  have hc := (foldl_apply_counters e.donationMult (stepDonations e.state respond shuffled)
    (stepCountedState e respond shuffled, e.agents)).1
  split
  · exact hc
  · exact hc

/-- A donor pair whose completion carries no ANSWER: pattern yields an
error record. -/
theorem decideRecord_parse_failure (st : DonorGameState)
    (respond : String → Except String String) (dn rc : DonorGameAgent)
    (resp : String) (hresp : respond dn.id = Except.ok resp)
    (hparse : findAnswer resp.toList = none) :
    (decideRecord st respond (dn, rc)).err.isSome = true := by
  have hperr : parseDonationResponse resp =
      Except.error ("could not find answer in response: " ++ resp) := by
    unfold parseDonationResponse
    rw [hparse]
  unfold decideRecord MakeDonationDecision
  dsimp only
  rw [hresp]
  dsimp only
  rw [hperr]
  rfl

/-- C6: a donor whose decision response contains no ANSWER: number yields a
failed-donation record; the pair contributes to failedDonations (whose total
increase Step adds is exactly the error-record count, of which this record
is one), is excluded from application, and both the donor and the recipient
of the pair end the round with their balances unchanged. -/
theorem step_parse_failure (e : DonorGameEnvironment) (shuffled : List DonorGameAgent)
    (respond : String → Except String String)
    (hnd : (shuffled.map DonorGameAgent.id).Nodup)
    (heven : shuffled.length % 2 = 0)
    (ppre ppost : List (DonorGameAgent × DonorGameAgent)) (dn rc : DonorGameAgent)
    (hsplit : mkPairs shuffled = ppre ++ (dn, rc) :: ppost)
    (resp : String) (hresp : respond dn.id = Except.ok resp)
    (hparse : findAnswer resp.toList = none) :
    (decideRecord e.state respond (dn, rc)).err.isSome = true ∧
    (e.Step shuffled respond).2.state.failedDonations =
      e.state.failedDonations + stepFailedCount e.state respond shuffled ∧
    1 ≤ stepFailedCount e.state respond shuffled ∧
    (∀ r ∈ stepDonations e.state respond shuffled,
      r.donorID ≠ dn.id ∧ r.recipientID ≠ dn.id ∧
      r.donorID ≠ rc.id ∧ r.recipientID ≠ rc.id) ∧
    lookupD (e.Step shuffled respond).2.state.resources dn.id =
      lookupD e.state.resources dn.id ∧
    lookupD (e.Step shuffled respond).2.state.resources rc.id =
      lookupD e.state.resources rc.id := by
  have herr := decideRecord_parse_failure e.state respond dn rc resp hresp hparse
  have hsubl := (pairList_mkPairs_sublist shuffled).map DonorGameAgent.id
  have hnodup := hnd.sublist hsubl
  obtain ⟨hpw, _⟩ := pairwise_of_pairList_nodup (mkPairs shuffled) hnodup
  rw [hsplit] at hpw
  have hdisj : ∀ r ∈ stepDonations e.state respond shuffled,
      r.donorID ≠ dn.id ∧ r.recipientID ≠ dn.id ∧
      r.donorID ≠ rc.id ∧ r.recipientID ≠ rc.id := by
    intro r hr
    have hrerr := stepDonations_err hr
    obtain ⟨q, hq, hqr⟩ := stepDonations_mem_pairs hr
    obtain ⟨hqd, hqrc⟩ := decideRecord_ids e.state respond q
    rw [hqr] at hqd hqrc
    rw [hsplit] at hq
    rcases List.mem_append.mp hq with hq1 | hq2
    · have hd := (List.pairwise_append.mp hpw).2.2 q hq1 (dn, rc)
        (List.mem_cons_self _ _)
      rw [hqd, hqrc hrerr]
      exact ⟨hd.1, hd.2.2.1, hd.2.1, hd.2.2.2⟩
    · rcases List.mem_cons.mp hq2 with hq3 | hq4
      · rw [hq3] at hqr
        rw [hqr] at herr
        rw [hrerr] at herr
        simp at herr
      · have hd := (List.pairwise_cons.mp ((List.pairwise_append.mp hpw).2.1)).1 q hq4
        rw [hqd, hqrc hrerr]
        exact ⟨fun hh => hd.1 hh.symm, fun hh => hd.2.1 hh.symm,
          fun hh => hd.2.2.1 hh.symm, fun hh => hd.2.2.2 hh.symm⟩
  refine ⟨herr, step_failed_count e shuffled respond heven, ?_, hdisj, ?_, ?_⟩
  · have hmem : decideRecord e.state respond (dn, rc) ∈
        stepRecords e.state respond shuffled := by
      unfold stepRecords
      refine List.mem_map_of_mem _ ?_
      rw [hsplit]
      exact List.mem_append_right _ (List.mem_cons_self _ _)
    have hmemf : decideRecord e.state respond (dn, rc) ∈
        (stepRecords e.state respond shuffled).filter (fun r => r.err.isSome) :=
      List.mem_filter.mpr ⟨hmem, herr⟩
    exact List.length_pos.mpr (List.ne_nil_of_mem hmemf)
  · rw [step_resources e shuffled respond heven]
    unfold applyUpTo
    rw [foldl_apply_preserve e.donationMult dn.id _ _
      (fun r hr => ⟨fun hh => ((hdisj r hr).1 hh.symm), fun hh => ((hdisj r hr).2.1 hh.symm)⟩)]
    rfl
  · rw [step_resources e shuffled respond heven]
    unfold applyUpTo
    rw [foldl_apply_preserve e.donationMult rc.id _ _
      (fun r hr => ⟨fun hh => ((hdisj r hr).2.2.1 hh.symm),
        fun hh => ((hdisj r hr).2.2.2 hh.symm)⟩)]
    rfl

/-- Witness for C6: both agents get a completion without an ANSWER: line;
the round keeps both balances and counts one failed record per pair. -/
theorem step_parse_failure_witness :
    (decideRecord envAB.state respondNoAnswer (agentA, agentB)).err.isSome = true ∧
    (envAB.Step [agentA, agentB] respondNoAnswer).2.state.failedDonations =
      envAB.state.failedDonations +
        stepFailedCount envAB.state respondNoAnswer [agentA, agentB] ∧
    1 ≤ stepFailedCount envAB.state respondNoAnswer [agentA, agentB] ∧
    (∀ r ∈ stepDonations envAB.state respondNoAnswer [agentA, agentB],
      r.donorID ≠ agentA.id ∧ r.recipientID ≠ agentA.id ∧
      r.donorID ≠ agentB.id ∧ r.recipientID ≠ agentB.id) ∧
    lookupD (envAB.Step [agentA, agentB] respondNoAnswer).2.state.resources agentA.id =
      lookupD envAB.state.resources agentA.id ∧
    lookupD (envAB.Step [agentA, agentB] respondNoAnswer).2.state.resources agentB.id =
      lookupD envAB.state.resources agentB.id :=
  step_parse_failure envAB [agentA, agentB] respondNoAnswer (by decide) (by decide)
    [] [] agentA agentB (by decide) "mock response" rfl (by decide)

theorem deliverAll_nil (b : SimpleBroker) (m : Message) :
    deliverAll b m [] = (none, b) := rfl

theorem deliverAll_cons_unknown {b : SimpleBroker} {m : Message} {rid : String}
    (rest : List String) (h : lookupA rid b.subscribers = none) :
    deliverAll b m (rid :: rest) = deliverAll b m rest := by
  simp only [deliverAll]
  rw [h]

theorem deliverAll_cons_full {b : SimpleBroker} {m : Message} {rid : String}
    {q : Queue} (rest : List String) (h : lookupA rid b.subscribers = some q)
    (ht : trySend q m = none) :
    deliverAll b m (rid :: rest) =
      (some ("recipient " ++ rid ++ " channel is full"), b) := by
  simp only [deliverAll]
  rw [h]
  dsimp only
  rw [ht]

theorem deliverAll_cons_sent {b : SimpleBroker} {m : Message} {rid : String}
    {q q2 : Queue} (rest : List String) (h : lookupA rid b.subscribers = some q)
    (ht : trySend q m = some q2) :
    deliverAll b m (rid :: rest) =
      deliverAll ⟨setA rid q2 b.subscribers⟩ m rest := by
  simp only [deliverAll]
  rw [h]
  dsimp only
  rw [ht]

theorem deliverAll_lookup_none (m : Message) (x : String) :
    ∀ (rs : List String) (b : SimpleBroker),
    lookupA x b.subscribers = none →
    lookupA x (deliverAll b m rs).2.subscribers = none := by
  intro rs
  induction rs with
  | nil => intro b h; exact h
  | cons rid rest ih =>
    intro b h
    cases hl : lookupA rid b.subscribers with
    | none =>
      rw [deliverAll_cons_unknown rest hl]
      exact ih b h
    | some q =>
      cases ht : trySend q m with
      | none =>
        rw [deliverAll_cons_full rest hl ht]
        exact h
      | some q2 =>
        rw [deliverAll_cons_sent rest hl ht]
        refine ih _ ?_
        have hx : x ≠ rid := fun hh => by rw [hh, hl] at h; cases h
        show lookupA x (setA rid q2 b.subscribers) = none
        rw [lookupA_setA_ne _ _ hx]
        exact h

theorem deliverAll_all_unknown (m : Message) :
    ∀ (rs : List String) (b : SimpleBroker),
    (∀ rid ∈ rs, lookupA rid b.subscribers = none) →
    deliverAll b m rs = (none, b) := by
  intro rs
  induction rs with
  | nil => intro b _; rfl
  | cons rid rest ih =>
    intro b h
    rw [deliverAll_cons_unknown rest (h rid (List.mem_cons_self _ _))]
    exact ih b (fun r hr => h r (List.mem_cons_of_mem _ hr))

theorem deliverAll_not_recipient (m : Message) (x : String) :
    ∀ (rs : List String) (b : SimpleBroker),
    (∀ rid ∈ rs, rid ≠ x) →
    lookupA x (deliverAll b m rs).2.subscribers = lookupA x b.subscribers := by
  intro rs
  induction rs with
  | nil => intro b _; rfl
  | cons rid rest ih =>
    intro b h
    cases hl : lookupA rid b.subscribers with
    | none =>
      rw [deliverAll_cons_unknown rest hl]
      exact ih b (fun r hr => h r (List.mem_cons_of_mem _ hr))
    | some q =>
      cases ht : trySend q m with
      | none =>
        rw [deliverAll_cons_full rest hl ht]
      | some q2 =>
        rw [deliverAll_cons_sent rest hl ht]
        rw [ih _ (fun r hr => h r (List.mem_cons_of_mem _ hr))]
        exact lookupA_setA_ne _ _ (fun hh => h rid (List.mem_cons_self _ _) hh.symm)

/-- C8: Publish creates no queue for an unsubscribed id (so never places a
message there), a direct message whose recipients are all non-existent is
silently dropped with no error and no state change, and a broadcast never
touches the sender queue. -/
theorem publish_no_unsubscribed_delivery (b : SimpleBroker) (m : Message) :
    (∀ id2, lookupA id2 b.subscribers = none →
      lookupA id2 (b.Publish m).2.subscribers = none) ∧
    (m.recipients ≠ [] → (∀ id2 ∈ m.recipients, lookupA id2 b.subscribers = none) →
      b.Publish m = (none, b)) ∧
    (m.recipients = [] →
      lookupA m.sender (b.Publish m).2.subscribers = lookupA m.sender b.subscribers) := by
  refine ⟨?_, ?_, ?_⟩
  · intro id2 h
    unfold SimpleBroker.Publish
    exact deliverAll_lookup_none m id2 _ b h
  · intro hne hall
    unfold SimpleBroker.Publish
    rw [if_neg (by simpa using hne)]
    exact deliverAll_all_unknown m m.recipients b hall
  · intro hemp
    unfold SimpleBroker.Publish
    rw [if_pos (by simpa using hemp)]
    refine deliverAll_not_recipient m m.sender _ b ?_
    intro rid hr
    have := List.mem_filter.mp hr
    simpa using this.2

/-- Witness for C8 on the two-subscriber fixture broker. -/
theorem publish_no_unsubscribed_delivery_witness :
    lookupA "c" (brokerAB.Publish msgBroadcast).2.subscribers = none ∧
    brokerAB.Publish msgGhost = (none, brokerAB) ∧
    lookupA msgBroadcast.sender (brokerAB.Publish msgBroadcast).2.subscribers =
      lookupA msgBroadcast.sender brokerAB.subscribers :=
  ⟨(publish_no_unsubscribed_delivery brokerAB msgBroadcast).1 "c" (by decide),
   (publish_no_unsubscribed_delivery brokerAB msgGhost).2.1 (by decide) (by decide),
   (publish_no_unsubscribed_delivery brokerAB msgBroadcast).2.2 (by decide)⟩

theorem deliverAll_append (m : Message) :
    ∀ (xs ys : List String) (b : SimpleBroker),
    deliverAll b m (xs ++ ys) =
      match deliverAll b m xs with
      | (none, b1) => deliverAll b1 m ys
      | (some er, b1) => (some er, b1) := by
  intro xs
  induction xs with
  | nil => intro ys b; rfl
  | cons rid rest ih =>
    intro ys b
    show deliverAll b m (rid :: (rest ++ ys)) = _
    cases hl : lookupA rid b.subscribers with
    | none =>
      rw [deliverAll_cons_unknown (rest ++ ys) hl, deliverAll_cons_unknown rest hl]
      exact ih ys b
    | some q =>
      cases ht : trySend q m with
      | none =>
        rw [deliverAll_cons_full (rest ++ ys) hl ht, deliverAll_cons_full rest hl ht]
      | some q2 =>
        rw [deliverAll_cons_sent (rest ++ ys) hl ht, deliverAll_cons_sent rest hl ht]
        exact ih ys _

theorem deliverAll_mem_mono (m m2 : Message) (x : String) :
    ∀ (rs : List String) (b : SimpleBroker),
    m2 ∈ ((lookupA x b.subscribers).getD ⟨[], 0⟩).msgs →
    m2 ∈ ((lookupA x (deliverAll b m rs).2.subscribers).getD ⟨[], 0⟩).msgs := by
  intro rs
  induction rs with
  | nil => intro b h; exact h
  | cons rid rest ih =>
    intro b h
    cases hl : lookupA rid b.subscribers with
    | none =>
      rw [deliverAll_cons_unknown rest hl]
      exact ih b h
    | some q =>
      cases ht : trySend q m with
      | none =>
        rw [deliverAll_cons_full rest hl ht]
        exact h
      | some q2 =>
        rw [deliverAll_cons_sent rest hl ht]
        refine ih _ ?_
        show m2 ∈ ((lookupA x (setA rid q2 b.subscribers)).getD ⟨[], 0⟩).msgs
        by_cases hx : x = rid
        · subst hx
          rw [lookupA_setA_self]
          rw [hl] at h
          unfold trySend at ht
          by_cases hcap : q.msgs.length < q.cap
          · rw [if_pos hcap] at ht
            injection ht with ht2
            rw [← ht2]
            exact List.mem_append_left _ h
          · rw [if_neg hcap] at ht
            cases ht
        · rw [lookupA_setA_ne _ _ hx]
          exact h

/-- C10 amended: a non-empty To list containing the sender delivers into
the sender queue, provided the sender is subscribed with spare capacity
when its entry is reached and no earlier To entry aborted the publish at a
saturated channel — the broadcast self-exclusion does not apply to explicit
recipients. -/
theorem publish_self_direct (b : SimpleBroker) (m : Message)
    (pre post : List String) (hto : m.recipients = pre ++ m.sender :: post)
    (b2 : SimpleBroker) (hpre : deliverAll b m pre = (none, b2))
    (q : Queue) (hq : lookupA m.sender b2.subscribers = some q)
    (hcap : q.msgs.length < q.cap) :
    m ∈ ((lookupA m.sender (b.Publish m).2.subscribers).getD ⟨[], 0⟩).msgs := by
  unfold SimpleBroker.Publish
  rw [if_neg (by simp [hto])]
  rw [hto, deliverAll_append, hpre]
  show m ∈ ((lookupA m.sender
    (deliverAll b2 m (m.sender :: post)).2.subscribers).getD ⟨[], 0⟩).msgs
  rw [deliverAll_cons_sent post hq (by unfold trySend; rw [if_pos hcap])]
  refine deliverAll_mem_mono m m m.sender post _ ?_
  show m ∈ ((lookupA m.sender
    (setA m.sender { q with msgs := q.msgs ++ [m] } b2.subscribers)).getD ⟨[], 0⟩).msgs
  rw [lookupA_setA_self]
  exact List.mem_append_right _ (List.mem_cons_self _ _)

/-- C10 counterexample: the sender is subscribed with spare capacity, its id
is in the non-empty To list, yet the message never reaches the sender queue
because delivery aborts at the earlier saturated recipient. -/
theorem publish_self_direct_counterexample :
    lookupA "a" brokerFull.subscribers = some ⟨[], 1⟩ ∧
    "a" ∈ msgSelfAfterFull.recipients ∧ msgSelfAfterFull.recipients ≠ [] ∧
    msgSelfAfterFull.sender = "a" ∧
    (brokerFull.Publish msgSelfAfterFull).1 = some "recipient b channel is full" ∧
    msgSelfAfterFull ∉
      ((lookupA "a" (brokerFull.Publish msgSelfAfterFull).2.subscribers).getD
        ⟨[], 0⟩).msgs := by decide

/-- Witness for C10 amended: a self-addressed direct message with no earlier
recipients is delivered into the sender queue. -/
theorem publish_self_direct_witness :
    msgSelf ∈ ((lookupA msgSelf.sender
      (brokerSelf.Publish msgSelf).2.subscribers).getD ⟨[], 0⟩).msgs :=
  publish_self_direct brokerSelf msgSelf [] [] rfl brokerSelf rfl ⟨[], 1⟩ rfl (by decide)

/-- C9 counterexample: one generic Step from the freshly constructed
environment leaves the step counter at 0 (not incremented to 1), the status
at idle (no transition to running), and the timestamp as it was. -/
theorem base_step_counterexample :
    ((NewBaseEnvironment (α := Nat) ⟨"idle", 0, 7⟩).Step (fun a => a)).state.stepCount = 0 ∧
    ¬ ((NewBaseEnvironment (α := Nat) ⟨"idle", 0, 7⟩).Step (fun a => a)).state.stepCount =
        (NewBaseEnvironment (α := Nat) ⟨"idle", 0, 7⟩).state.stepCount + 1 ∧
    ((NewBaseEnvironment (α := Nat) ⟨"idle", 0, 7⟩).Step (fun a => a)).state.status =
      "idle" ∧
    ((NewBaseEnvironment (α := Nat) ⟨"idle", 0, 7⟩).Step (fun a => a)).state.timestamp =
      7 := by
  refine ⟨rfl, by decide, rfl, rfl⟩

/-- C9 amended: the generic BaseEnvironment Step runs the agents but leaves
the state untouched — step counter, status and timestamp all keep their
prior values (state updates are left to derived environments). -/
theorem base_step_state_unchanged {α : Type} (run : α → α) (e : BaseEnvironment α) :
    (e.Step run).state = e.state := rfl

/-- C7 counterexample: the same ledger presented in two scan orders (the
two lists are permutations of one another, hence equal as finite maps)
returns different top-1 lists — the tie-break follows the unspecified map
iteration order, so two runs need not agree. -/
theorem getTopAgents_tiebreak_counterexample :
    GetTopAgents [("a", 5), ("b", 5)] 1 = ["a"] ∧
    GetTopAgents [("b", 5), ("a", 5)] 1 = ["b"] ∧
    List.Perm [("a", (5 : ℚ)), ("b", 5)] [("b", 5), ("a", 5)] ∧
    GetTopAgents [("a", 5), ("b", 5)] 1 ≠ GetTopAgents [("b", 5), ("a", 5)] 1 := by
  decide

/-- C7 amended: for every scan order of the ledger and every n, GetTopAgents
returns exactly min(n, #ledger entries) identities, the underlying truncated
score list is sorted by descending balance, and every returned identity is a
ledger key; the tie order is inherited from the scan order and is therefore
not deterministic across runs. -/
theorem getTopAgents_count_sorted (resources : List (String × ℚ)) (n : Nat) :
    (GetTopAgents resources n).length = min n resources.length ∧
    List.Sorted descBal (topScores resources n) ∧
    ∀ id2 ∈ GetTopAgents resources n, id2 ∈ resources.map Prod.fst := by
  refine ⟨?_, ?_, ?_⟩
  · unfold GetTopAgents topScores
    rw [List.length_map, List.length_take, List.length_insertionSort]
  · unfold topScores
    exact (List.sorted_insertionSort descBal resources).sublist (List.take_sublist _ _)
  · intro id2 h
    unfold GetTopAgents topScores at h
    obtain ⟨p, hp, hpe⟩ := List.mem_map.mp h
    have hp2 : p ∈ List.insertionSort descBal resources :=
      (List.take_sublist _ _).mem hp
    have hp3 : p ∈ resources := (List.perm_insertionSort descBal resources).mem_iff.mp hp2
    rw [← hpe]
    exact List.mem_map_of_mem _ hp3

end Petri

